import Mathlib

/-!
Verification development for the `scanner` repository: a shallow embedding of
the prefix-inference algorithm (`scanner/analyzer.py`), the crawl frontier
logic (`scanner/crawler.py`), the endpoint prober's placeholder filling
(`scanner/prober.py`), and the pipeline exit behaviour (`scanner/main.py`),
together with theorems settling the specification claims about them.
-/

namespace Scanner

/-- Result of `urllib.parse.urlparse`, restricted to the components the
scanner reads: scheme, netloc (host) and path.  Query and fragment are
dropped, as the scanner never reads them. -/
structure ParsedUrl where
  scheme : String
  netloc : String
  path : String
deriving DecidableEq, Repr

/-- ASCII lower-casing of one character, as Python's `str.lower` acts on
the ASCII range the scanner's inputs use. -/
def charLower (c : Char) : Char :=
  if 'A' ≤ c ∧ c ≤ 'Z' then Char.ofNat (c.toNat + 32) else c

/-- Lower-casing of a character list. -/
def lowerChars (l : List Char) : List Char := l.map charLower

/-- Locate the first occurrence of the literal "://" in a character list,
returning the text before it and the text after it. -/
def splitSchemeRest : List Char → Option (List Char × List Char)
  | [] => none
  | ':' :: '/' :: '/' :: rest => some ([], rest)
  | c :: cs => (splitSchemeRest cs).map (fun p => (c :: p.1, p.2))

/-- Model of `urllib.parse.urlparse` on the character list of a URL, for the
common `scheme://netloc/path?query#fragment` shape: the fragment (from the
first '#') and query (from the first '?') are discarded, the scheme is the
text before "://" (lower-cased, as `urlparse` lower-cases schemes), the
netloc runs to the next '/', and the path is the remainder.  A string with
no "://" parses with empty scheme and netloc, the whole text as path. -/
def urlparseChars (l : List Char) : ParsedUrl :=
  let noFrag := l.takeWhile (fun c => c ≠ '#')
  let noQuery := noFrag.takeWhile (fun c => c ≠ '?')
  match splitSchemeRest noQuery with
  | some (sch, rest) =>
      let netloc := rest.takeWhile (fun c => c ≠ '/')
      let path := rest.dropWhile (fun c => c ≠ '/')
      { scheme := String.mk (lowerChars sch), netloc := String.mk netloc,
        path := String.mk path }
  | none => { scheme := "", netloc := "", path := String.mk noQuery }

/-- `urlparse` on strings. -/
def urlparse (s : String) : ParsedUrl := urlparseChars s.data

/-- Number of occurrences of `a` in `l` (the count a Python `Counter`
assigns to key `a`). -/
def countIn [DecidableEq α] (l : List α) (a : α) : Nat :=
  (l.filter (fun x => x = a)).length

/-- Worker for `firstSeen`: keep each element not yet in the accumulator of
already-seen elements. -/
def firstSeenAux [DecidableEq α] : List α → List α → List α
  | [], _ => []
  | x :: xs, seen =>
    if x ∈ seen then firstSeenAux xs seen else x :: firstSeenAux xs (x :: seen)

/-- The distinct elements of `l` in order of first occurrence (the key
order of a Python `Counter` built from `l`). -/
def firstSeen [DecidableEq α] (l : List α) : List α := firstSeenAux l []

/-- Stable statistical mode: the element of `l` with the largest
multiplicity, ties broken by first occurrence in `l`.  This is the value of
both `statistics.mode(l)` and `Counter(l).most_common(1)[0][0]` in Python
(both return the first-encountered mode on ties). -/
def mode [DecidableEq α] [Inhabited α] (l : List α) : α :=
  match firstSeen l with
  | [] => default
  | c :: cs => cs.foldl (fun best x => if countIn l best < countIn l x then x else best) c

/-- One recorded exchange of the traffic log, with the two attributes the
analyzer reads: the request URL (`entry["request"]["url"]`) and the response
content type (`entry["response"]["content"]["mimeType"]`, defaulted to `""`
when missing). -/
structure Entry where
  url : String
  mimeType : String
deriving DecidableEq, Repr

/-- The fixed allow-list `api_content_types` of `detect_api_prefix_core`. -/
def apiContentTypes : List String :=
  ["application/json", "application/xml", "text/xml", "application/hal+json",
   "application/vnd.api+json", "text/html", "application/x-www-form-urlencoded",
   "multipart/form-data", "text/plain"]

/-- The `is_api` test of the analyzer: some allow-listed type occurs as a
substring of the lower-cased mime type (`any(t in mime_type for t in
api_content_types)`). -/
def isApiMime (m : String) : Bool :=
  apiContentTypes.any (fun t => decide (t.data <:+: lowerChars m.data))

/-- `path.strip("/")`: remove every leading and trailing '/'. -/
def stripSlashes (l : List Char) : List Char :=
  ((l.dropWhile (fun c => c = '/')).reverse.dropWhile (fun c => c = '/')).reverse

/-- `s.split("/")` with Python semantics: splitting the empty text yields
`[[]]`, and consecutive separators yield empty pieces. -/
def splitOnSlash : List Char → List (List Char)
  | [] => [[]]
  | c :: rest =>
    match splitOnSlash rest with
    | [] => [[]]
    | s :: ss => if c = '/' then [] :: s :: ss else (c :: s) :: ss

/-- The segment-walk loop of `detect_api_prefix` (lines 101-126 of
`analyzer.py`), parametrised by the acceptance threshold.  At index `i` it
collects the segments of the still-alive paths long enough to have one,
takes the most frequent segment, accepts it when its count is at least
`threshold` of the ORIGINAL total `total`, narrows the alive set to the
paths carrying that segment at `i`, and otherwise stops.  `fuel` is the
`range(max_depth)` bound of the `for` loop. -/
def walkFrom (total : Nat) (threshold : ℚ) : Nat → Nat → List (List (List Char)) → List (List Char)
  | 0, _, _ => []
  | fuel + 1, i, lists =>
    let segsAtI := (lists.filter (fun s => decide (i < s.length))).map (fun s => s.getD i [])
    if segsAtI = [] then []
    else
      let seg := mode segsAtI
      let count := countIn segsAtI seg
      if threshold ≤ mkRat (count : Int) total then
        seg :: walkFrom total threshold fuel (i + 1)
          (lists.filter (fun s => decide (i < s.length) && decide (s.getD i [] = seg)))
      else []

/-- Lines 39 and 62-68 of `analyzer.py`: when a target URL is given and its
netloc is non-empty (`if target_netloc:`), restrict the parsed URLs to that
netloc; when the restriction yields nothing, fall back to the unrestricted
list. -/
def hintRestrict (parsedUrls : List ParsedUrl) (targetUrl : Option String) : List ParsedUrl :=
  match targetUrl with
  | some t =>
      let targetNetloc := (urlparse t).netloc
      if targetNetloc = "" then parsedUrls
      else
        let filtered := parsedUrls.filter (fun u => u.netloc = targetNetloc)
        if filtered = [] then parsedUrls else filtered
  | none => parsedUrls

/-- The body of `detect_api_prefix` after the HAR file has been read and
parsed (lines 20-129 of `analyzer.py`): filter to API-like entries, restrict
to the hint netloc with fallback, take the per-component modes as the base,
collect paths matching the base, and walk their segments with threshold
`0.6` of the original filtered-by-base count. -/
def detect_api_prefix_core (entries : List Entry) (targetUrl : Option String) : Option String :=
  if entries = [] then none
  else
    let apiUrls := (entries.filter (fun e => isApiMime e.mimeType)).map (fun e => e.url)
    if apiUrls = [] then none
    else
      let parsedUrls := hintRestrict (apiUrls.map urlparse) targetUrl
      let commonScheme := mode (parsedUrls.map (fun u => u.scheme))
      let commonNetloc := mode (parsedUrls.map (fun u => u.netloc))
      let baseUrl := commonScheme ++ "://" ++ commonNetloc
      let paths := (parsedUrls.filter
        (fun u => decide (u.scheme = commonScheme) && decide (u.netloc = commonNetloc))).map
        (fun u => u.path)
      if paths = [] then some baseUrl
      else
        let segmentLists := paths.map (fun p => splitOnSlash (stripSlashes p.data))
        let totalApis := paths.length
        let maxDepth := (segmentLists.map List.length).foldr max 0
        let commonSegments := walkFrom totalApis (mkRat 3 5) maxDepth 0 segmentLists
        let prefixPath := String.intercalate "/" (commonSegments.map String.mk)
        some (if prefixPath = "" then baseUrl else baseUrl ++ "/" ++ prefixPath)

/-- Claim-side description, 4.1 step 2 of the spec: the entries remaining
after the hint-domain restriction, or the unrestricted API-like set when the
restriction yields nothing. -/
def remainingOf (entries : List Entry) (targetUrl : Option String) : List ParsedUrl :=
  hintRestrict (((entries.filter (fun e => isApiMime e.mimeType)).map (fun e => e.url)).map urlparse)
    targetUrl

/-- The scheme component of the inferred base: stable mode of the remaining
entries' schemes. -/
def commonSchemeOf (entries : List Entry) (targetUrl : Option String) : String :=
  mode ((remainingOf entries targetUrl).map (fun u => u.scheme))

/-- The host component of the inferred base: stable mode of the remaining
entries' netlocs. -/
def commonNetlocOf (entries : List Entry) (targetUrl : Option String) : String :=
  mode ((remainingOf entries targetUrl).map (fun u => u.netloc))

/-- The base URL the analyzer renders from the two component modes. -/
def baseOf (entries : List Entry) (targetUrl : Option String) : String :=
  commonSchemeOf entries targetUrl ++ "://" ++ commonNetlocOf entries targetUrl

/-- Claim-side description of the statistical mode of the (scheme, host)
PAIRS of the remaining entries, ties broken by first-seen order — the base
the specification text asserts. -/
def pairModeOf (entries : List Entry) (targetUrl : Option String) : String × String :=
  mode ((remainingOf entries targetUrl).map (fun u => (u.scheme, u.netloc)))

/-- The paths of the remaining entries that match the base exactly. -/
def pathsOf (entries : List Entry) (targetUrl : Option String) : List String :=
  ((remainingOf entries targetUrl).filter
    (fun u => decide (u.scheme = commonSchemeOf entries targetUrl) &&
              decide (u.netloc = commonNetlocOf entries targetUrl))).map (fun u => u.path)

/-- The sequence of path segments the walk accepts at a given threshold,
over the paths matching the base. -/
def acceptedSegsOf (entries : List Entry) (targetUrl : Option String) (threshold : ℚ) :
    List (List Char) :=
  let segmentLists := (pathsOf entries targetUrl).map (fun p => splitOnSlash (stripSlashes p.data))
  walkFrom (pathsOf entries targetUrl).length threshold
    ((segmentLists.map List.length).foldr max 0) 0 segmentLists

/-- Final assembly exactly as the code performs it: the base, a '/' and the
'/'-joined accepted segments — except that the bare base is returned
whenever the JOINED STRING is empty. -/
def renderedAnswer (base : String) (segs : List (List Char)) : String :=
  let prefixPath := String.intercalate "/" (segs.map String.mk)
  if prefixPath = "" then base else base ++ "/" ++ prefixPath

/-- Final assembly as the claim words it: the bare base is returned exactly
when NO SEGMENT was accepted. -/
def claimedAnswer (base : String) (segs : List (List Char)) : String :=
  if segs = [] then base
  else base ++ "/" ++ String.intercalate "/" (segs.map String.mk)

/-! ### Crawler (`scanner/crawler.py`) -/

/-- The crawler state: the fields of `AsyncCrawler` the frontier logic
reads, plus `processed`, a ghost trace recording, in order, every URL the
loop actually navigated to (`page.goto`).  `visited` is the Python set
modelled as a duplicate-free-by-use list; `queue` is the deque of
`(url, depth)` pairs. -/
structure CState where
  startUrl : String
  maxDepth : Nat
  domain : String
  visited : List String
  queue : List (String × Nat)
  processed : List String
deriving DecidableEq, Repr

/-- `AsyncCrawler.__init__`: empty visited set, the start URL at depth 0 in
the queue, and the start URL's netloc as the crawl domain. -/
def initCrawler (startUrl : String) (maxDepth : Nat) : CState :=
  { startUrl := startUrl, maxDepth := maxDepth, domain := (urlparse startUrl).netloc,
    visited := [], queue := [(startUrl, 0)], processed := [] }

/-- The static-asset extension set of `AsyncCrawler.is_static_asset`. -/
def staticExts : List String :=
  [".jpg", ".jpeg", ".png", ".gif", ".css", ".js", ".ico", ".svg",
   ".woff", ".woff2", ".ttf", ".eot", ".mp4", ".mp3", ".pdf"]

/-- `AsyncCrawler.is_static_asset`: the lower-cased path ends with one of
the known static extensions. -/
def is_static_asset (path : String) : Bool :=
  staticExts.any (fun ext => decide (ext.data <:+ lowerChars path.data))

/-- `AsyncCrawler.is_valid_url`: netloc equals the crawl domain, scheme is
`http` or `https`, the raw URL is not in the visited set, and the path is
not a static asset. -/
def is_valid_url (st : CState) (url : String) : Bool :=
  let parsed := urlparse url
  decide (parsed.netloc = st.domain) &&
    decide (parsed.scheme ∈ ["http", "https"]) &&
    !(decide (url ∈ st.visited)) &&
    !(is_static_asset parsed.path)

/-- Normalisation applied to each collected href in
`AsyncCrawler.extract_links`: drop everything from the first '#', then strip
one trailing '/'. -/
def cleanHref (href : List Char) : List Char :=
  let c := href.takeWhile (fun ch => ch ≠ '#')
  if c.getLast? = some '/' then c.dropLast else c

/-- String form of `cleanHref`. -/
def cleanHrefStr (href : String) : String := String.mk (cleanHref href.data)

/-- `AsyncCrawler.extract_links` given the raw `e.href` values of the page's
anchors: normalise each href and collect them into a set (modelled as the
first-seen-ordered duplicate-free list). -/
def extract_links (hrefs : List String) : List String :=
  firstSeen (hrefs.map cleanHrefStr)

/-- The enqueue loop of `AsyncCrawler.process_page` (lines 186-188): each
discovered link passing `is_valid_url` is appended to the queue at
`depth + 1`. -/
def enqueueLinks (st : CState) (links : List String) (depth : Nat) : CState :=
  { st with queue :=
      st.queue ++ ((links.filter (fun l => is_valid_url st l)).map (fun l => (l, depth + 1))) }

/-- `AsyncCrawler.process_page` for a page whose anchors carry the hrefs
`oracle url`: links are only extracted and enqueued below the maximum
depth.  Form handling performs no frontier mutation and is omitted. -/
def processPage (oracle : String → List String) (st : CState) (url : String) (depth : Nat) :
    CState :=
  if depth < st.maxDepth then enqueueLinks st (extract_links (oracle url)) depth else st

/-- The fetch loop of `AsyncCrawler.crawl` (lines 107-128): pop the head of
the queue; skip it if already visited or beyond the maximum depth; otherwise
mark it visited, record the navigation in `processed`, and process the page.
`fuel` bounds the number of iterations (the Python loop runs until the queue
empties). -/
def crawlLoop (oracle : String → List String) : Nat → CState → CState
  | 0, st => st
  | fuel + 1, st =>
    match st.queue with
    | [] => st
    | (url, depth) :: rest =>
      if url ∈ st.visited then
        crawlLoop oracle fuel { st with queue := rest }
      else if st.maxDepth < depth then
        crawlLoop oracle fuel { st with queue := rest }
      else
        crawlLoop oracle fuel
          (processPage oracle
            { st with queue := rest, visited := url :: st.visited,
                      processed := url :: st.processed }
            url depth)

/-- The spec-generation step in the `finally` block of `AsyncCrawler.crawl`
(lines 149-166), fed with the parse of the freshly written HAR file (`none`
models a missing or unparseable file, in which case `detect_api_prefix`
prints the read error and returns `None`). -/
def detect_api_prefix_full (harParse : Option (List Entry)) (targetUrl : Option String) :
    Option String :=
  match harParse with
  | none => none
  | some entries => detect_api_prefix_core entries targetUrl

/-- What the spec-generation step does: the prefix actually passed to the
external synthesiser, and whether the synthesiser was invoked. -/
structure SpecGenOutcome where
  usedApiPrefixArg : String
  synthInvoked : Bool
deriving DecidableEq, Repr

/-- The crawl stage's spec-generation step: detect the prefix from the HAR,
fall back to the crawler's root URL when detection returns nothing
(`target_prefix = detected_prefix or self.root_url`), and invoke the
synthesiser.  The `Except` result records that the stage has no failure
exit: every input, including an unreadable HAR, produces `Except.ok`. -/
def finalizeSpecStage (harParse : Option (List Entry)) (startUrl rootUrl : String) :
    Except String SpecGenOutcome :=
  let detected := detect_api_prefix_full harParse (some startUrl)
  let targetPrefixArg := detected.getD rootUrl
  Except.ok { usedApiPrefixArg := targetPrefixArg, synthInvoked := true }

/-! ### Prober (`scanner/prober.py`) -/

/-- One-pass worker for `_fill_params`.  The state is `none` while scanning
ordinary text, and `some acc` after an opening brace has been read, where
`acc` holds (reversed) the characters read since that brace.  On a closing
brace with a nonempty `acc` the whole bracketed group is replaced by '1'
(the regex `\x7b[^\x7d]+\x7d` matched); with an empty `acc` the two braces
are emitted literally (the regex needs at least one inner character); at
end of input an open group is emitted literally (no closing brace
followed). -/
def fillAux : Option (List Char) → List Char → List Char
  | none, [] => []
  | none, c :: rest => if c = '{' then fillAux (some []) rest else c :: fillAux none rest
  | some acc, [] => '{' :: acc.reverse
  | some acc, c :: rest =>
    if c = '}' then
      if acc = [] then '{' :: '}' :: fillAux none rest
      else '1' :: fillAux none rest
    else fillAux (some (c :: acc)) rest

/-- `APIProber._fill_params`, i.e. `re.sub(r"\x7b[^\x7d]+\x7d", "1", path)`
on the character list of the path: scanning left to right, a '\x7b' followed
by at least one non-'\x7d' character and then a '\x7d' is a placeholder and
is replaced by '1' (the scan resumes after the closing brace); every other
character is copied unchanged. -/
def fillParams (l : List Char) : List Char := fillAux none l

/-- String form of `_fill_params`. -/
def fill_params (path : String) : String := String.mk (fillParams path.data)

/-- A piece of a path template: a literal run of characters, or a named
placeholder (rendered inside braces). -/
inductive TItem
  | lit : List Char → TItem
  | param : List Char → TItem
deriving DecidableEq, Repr

/-- Rendering of a template piece into the template text. -/
def renderTItem : TItem → List Char
  | .lit s => s
  | .param s => '{' :: (s ++ ['}'])

/-- The piece after placeholder filling: placeholders become the fixed
representative value "1", literals are untouched. -/
def fillTItem : TItem → List Char
  | .lit _1 => _1
  | .param _ => ['1']

/-- Well-formedness of a template piece: literals carry no opening brace,
placeholder names are nonempty and carry no closing brace. -/
def okTItem : TItem → Prop
  | .lit s => ∀ ch ∈ s, ch ≠ '{'
  | .param s => s ≠ [] ∧ ∀ ch ∈ s, ch ≠ '}'

instance : DecidablePred okTItem := by
  intro i; cases i <;> simp only [okTItem] <;> infer_instance

/-- A full path template rendered to its text. -/
def renderTemplate (t : List TItem) : List Char :=
  (t.map renderTItem).foldr (fun a b => a ++ b) []

/-- A full path template after placeholder filling. -/
def fillTemplate (t : List TItem) : List Char :=
  (t.map fillTItem).foldr (fun a b => a ++ b) []

/-! ### Pipeline (`scanner/main.py`) -/

/-- The environment a pipeline run faces: whether the proxy subprocess has
already died when `async_main` polls it, whether the initial spec document
is present and parseable for the prober, how many individual crawl URLs and
probe requests fail (these are caught and logged), and whether the final
spec synthesis succeeds (its exceptions are caught). -/
structure MainEnv where
  proxyDied : Bool
  specFileOk : Bool
  crawlUrlFailures : Nat
  probeRequestFailures : Nat
  finalSpecOk : Bool
deriving DecidableEq, Repr

/-- Observable outcome of a pipeline run: the process exit code and which
stages were reached. -/
structure MainOutcome where
  exitCode : Nat
  probed : Bool
  finalSpecAttempted : Bool
deriving DecidableEq, Repr

/-- `async_main` of `scanner/main.py` as a function of the environment.
Step 1 (crawl) swallows individual URL failures.  Step 2 polls the proxy:
if it has already exited, an error is printed and the coroutine returns —
`asyncio.run` then finishes normally and the process exits 0, skipping the
probing and final-spec steps.  Step 3 (probing) calls `load_spec`, which
invokes `sys.exit(1)` when the spec document is missing or unparseable,
and swallows individual request failures.  Step 4 wraps the synthesis in
`try/except`, so its failure does not change the exit code. -/
def async_main (env : MainEnv) : MainOutcome :=
  if env.proxyDied then
    { exitCode := 0, probed := false, finalSpecAttempted := false }
  else if !env.specFileOk then
    { exitCode := 1, probed := false, finalSpecAttempted := false }
  else
    { exitCode := 0, probed := true, finalSpecAttempted := true }

/-- A small concrete traffic log used to instantiate theorems: two JSON
calls to `http://a`, two to `https://b`, one to `https://a`. -/
def exampleLog : List Entry :=
  [⟨"http://a/p", "application/json"⟩,
   ⟨"http://a/p", "application/json"⟩,
   ⟨"https://b/p", "application/json"⟩,
   ⟨"https://b/p", "application/json"⟩,
   ⟨"https://a/x", "application/json"⟩]

/-- The single-entry log whose only path is the bare root "/". -/
def rootOnlyLog : List Entry := [⟨"http://h/", "application/json"⟩]

/-! ## Theorems -/

/-- `[]` is a prefix of every list. -/
theorem isPre_nil {α : Type _} (l : List α) : [] <+: l := ⟨l, rfl⟩

/-- Extending both lists by the same head preserves the prefix relation. -/
theorem isPre_cons {α : Type _} (a : α) {l₁ l₂ : List α} (h : l₁ <+: l₂) :
    a :: l₁ <+: a :: l₂ :=
  List.cons_prefix_cons.mpr ⟨rfl, h⟩

/-- The segment walk is pointwise monotone in the threshold: a higher
threshold accepts a prefix of what a lower threshold accepts, because both
walks agree while the higher one accepts, and the higher one stops first. -/
theorem walkFrom_thr_le {t1 t2 : ℚ} (h : t2 ≤ t1) (total : Nat) :
    ∀ (fuel i : Nat) (lists : List (List (List Char))),
      walkFrom total t1 fuel i lists <+: walkFrom total t2 fuel i lists := by
  intro fuel
  induction fuel with
  | zero => intro i lists; exact isPre_nil _
  | succ n ih =>
    intro i lists
    simp only [walkFrom]
    by_cases hs :
        (lists.filter (fun s => decide (i < s.length))).map (fun s => s.getD i []) = []
    · rw [if_pos hs, if_pos hs]
    · rw [if_neg hs, if_neg hs]
      by_cases h1 :
          t1 ≤ mkRat ((countIn
              ((lists.filter (fun s => decide (i < s.length))).map (fun s => s.getD i []))
              (mode ((lists.filter (fun s => decide (i < s.length))).map
                (fun s => s.getD i []))) : Nat) : Int) total
      · rw [if_pos h1, if_pos (le_trans h h1)]
        exact isPre_cons _ (ih _ _)
      · rw [if_neg h1]
        exact isPre_nil _

/-- C4: for every traffic log and thresholds `t1 ≥ t2`, the segments the
prefix walk accepts at `t1` form a prefix of the segments it accepts at
`t2`: lowering the threshold never removes an accepted segment, it can only
add deeper ones. -/
theorem accepted_segments_monotone_in_threshold (entries : List Entry)
    (targetUrl : Option String) (t1 t2 : ℚ) (h : t2 ≤ t1) :
    acceptedSegsOf entries targetUrl t1 <+: acceptedSegsOf entries targetUrl t2 := by
  unfold acceptedSegsOf
  exact walkFrom_thr_le h _ _ _ _

/-- Witness for `accepted_segments_monotone_in_threshold` at the concrete
log `exampleLog` and thresholds 0.6 and 0.5. -/
theorem accepted_segments_monotone_witness :
    (mkRat 1 2 ≤ mkRat 3 5) ∧
      acceptedSegsOf exampleLog none (mkRat 3 5) <+: acceptedSegsOf exampleLog none (mkRat 1 2) :=
  ⟨by decide,
   accepted_segments_monotone_in_threshold exampleLog none (mkRat 3 5) (mkRat 1 2) (by decide)⟩

/-- C3: inference returns absent exactly when no entry of the log has an
API-like response content type; in particular a hint domain matching
nothing cannot force an absent result. -/
theorem infer_absent_iff_no_api_entry (entries : List Entry) (targetUrl : Option String) :
    detect_api_prefix_core entries targetUrl = none ↔
      ∀ e ∈ entries, isApiMime e.mimeType = false := by
  simp only [detect_api_prefix_core]
  by_cases he : entries = []
  · subst he; simp
  · rw [if_neg he]
    by_cases ha : (entries.filter (fun e => isApiMime e.mimeType)).map (fun e => e.url) = []
    · rw [if_pos ha]
      simp only [List.map_eq_nil_iff, List.filter_eq_nil_iff] at ha
      simp only [true_iff]
      intro e hee
      exact Bool.not_eq_true _ ▸ ha e hee
    · rw [if_neg ha]
      have hnapi : ¬ ∀ e ∈ entries, isApiMime e.mimeType = false := by
        intro hall
        exact ha (by
          simp only [List.map_eq_nil_iff, List.filter_eq_nil_iff]
          intro e hee
          simp [hall e hee])
      split
      · simp [hnapi]
      · simp [hnapi]

/-- C8 counterexample: in an environment where the proxy process has
already exited when polled, the pipeline's exit code is 0, not non-zero as
claimed. -/
theorem proxy_dead_exit_code_zero :
    (MainEnv.proxyDied ⟨true, true, 3, 0, true⟩) = true ∧
      (async_main ⟨true, true, 3, 0, true⟩).exitCode = 0 := by
  constructor <;> rfl

/-- C8 amended: when the proxy has already exited, the run reports the
failure but still exits with code 0, skipping probing and final spec
generation; and any run that reaches probing with a readable spec document
exits 0 regardless of how many individual URLs or probe requests failed. -/
theorem exit_code_behaviour (env : MainEnv) :
    (env.proxyDied = true →
      async_main env = { exitCode := 0, probed := false, finalSpecAttempted := false }) ∧
    (env.proxyDied = false → env.specFileOk = true → (async_main env).exitCode = 0) := by
  constructor
  · intro h; simp [async_main, h]
  · intro h1 h2; simp [async_main, h1, h2]

/-- Witness for `exit_code_behaviour` in the environment where the proxy
died and three crawl URLs had failed. -/
theorem exit_code_behaviour_witness :
    async_main ⟨true, false, 3, 2, false⟩ =
      { exitCode := 0, probed := false, finalSpecAttempted := false } :=
  (exit_code_behaviour ⟨true, false, 3, 2, false⟩).1 rfl

/-- C9 counterexample: a missing or unparseable traffic log (`none`) makes
prefix detection report the read failure and return absent, but the crawl
stage's spec-generation step does NOT stop: it still invokes the
synthesiser, with the crawler's root URL substituted for the prefix. -/
theorem unreadable_har_is_not_fatal :
    detect_api_prefix_full none (some "https://t.example") = none ∧
      finalizeSpecStage none "https://t.example" "https://t.example" =
        Except.ok { usedApiPrefixArg := "https://t.example", synthInvoked := true } := by
  constructor <;> rfl

/-- C9 amended: an unreadable traffic log is never fatal to the
spec-generation step: for every start and root URL the step succeeds,
invoking the synthesiser with the root URL as the API prefix. -/
theorem unreadable_har_falls_back_to_root (startUrl rootUrl : String) :
    finalizeSpecStage none startUrl rootUrl =
      Except.ok { usedApiPrefixArg := rootUrl, synthInvoked := true } := rfl

/-- Shared decomposition lemma: whenever at least one entry is API-like,
the analyzer returns exactly the rendering of the componentwise-mode base
together with the segments accepted by the 0.6-threshold walk. -/
theorem detect_core_renders (entries : List Entry) (targetUrl : Option String)
    (h : entries.filter (fun e => isApiMime e.mimeType) ≠ []) :
    detect_api_prefix_core entries targetUrl =
      some (renderedAnswer (baseOf entries targetUrl)
        (acceptedSegsOf entries targetUrl (mkRat 3 5))) := by
  have he : entries ≠ [] := by rintro rfl; simp at h
  have ha : (entries.filter (fun e => isApiMime e.mimeType)).map (fun e => e.url) ≠ [] := by
    simpa [List.map_eq_nil_iff] using h
  simp only [detect_api_prefix_core, remainingOf, commonSchemeOf, commonNetlocOf, baseOf,
    pathsOf, acceptedSegsOf, renderedAnswer]
  rw [if_neg he, if_neg ha]
  split
  next hp =>
    rw [hp]
    simp [walkFrom, String.intercalate]
  next hp => rfl

/-- C1 counterexample: on `exampleLog` the statistical mode of the
(scheme, host) PAIRS of the remaining entries is `("http", "a")` (two
occurrences, winning the tie on first-seen order), yet the analyzer builds
its base from the two componentwise modes `"https"` and `"a"` and returns
`"https://a/x"`, which does not extend the pair-mode base `http://a` at
all. -/
theorem base_is_not_pair_mode :
    detect_api_prefix_core exampleLog none = some "https://a/x" ∧
    pairModeOf exampleLog none = ("http", "a") ∧
    commonSchemeOf exampleLog none = "https" ∧
    commonNetlocOf exampleLog none = "a" ∧
    ¬ (("http://a" : String).data <+: ("https://a/x" : String).data) := by
  refine ⟨by decide, by decide, by decide, by decide, by decide⟩

/-- C1 amended: for every traffic log with at least one API-like entry, the
analyzer returns a URL extending a base built from the mode of the schemes
and the mode of the hosts of the remaining entries, each computed
independently (not the mode of (scheme, host) pairs), ties broken by
first-seen order. -/
theorem base_is_componentwise_mode (entries : List Entry) (targetUrl : Option String)
    (h : entries.filter (fun e => isApiMime e.mimeType) ≠ []) :
    ∃ r, detect_api_prefix_core entries targetUrl = some r ∧
      (baseOf entries targetUrl).data <+: r.data ∧
      baseOf entries targetUrl =
        commonSchemeOf entries targetUrl ++ "://" ++ commonNetlocOf entries targetUrl := by
  refine ⟨_, detect_core_renders entries targetUrl h, ?_, rfl⟩
  simp only [renderedAnswer]
  split
  · exact ⟨[], List.append_nil _⟩
  · rw [String.data_append, String.data_append, List.append_assoc]
    exact List.prefix_append _ _

/-- Witness for `base_is_componentwise_mode` at `exampleLog`. -/
theorem base_is_componentwise_mode_witness :
    exampleLog.filter (fun e => isApiMime e.mimeType) ≠ [] ∧
      ∃ r, detect_api_prefix_core exampleLog none = some r ∧
        (baseOf exampleLog none).data <+: r.data ∧
        baseOf exampleLog none =
          commonSchemeOf exampleLog none ++ "://" ++ commonNetlocOf exampleLog none :=
  ⟨by decide, base_is_componentwise_mode exampleLog none (by decide)⟩

/-- C2 counterexample: on the log whose single API path is the bare root
"/", the walk accepts one segment (the empty segment), so the claim's
formula yields `"http://h" ++ "/" ++ "" = "http://h/"`, yet the code's
emptiness guard is on the JOINED string and it returns the bare base
`"http://h"`. -/
theorem root_path_returns_bare_base :
    detect_api_prefix_core rootOnlyLog none = some "http://h" ∧
    acceptedSegsOf rootOnlyLog none (mkRat 3 5) = [[]] ∧
    claimedAnswer "http://h" [[]] = "http://h/" ∧
    renderedAnswer "http://h" [[]] = "http://h" ∧
    ("http://h" : String) ≠ "http://h/" := by
  refine ⟨by decide, by decide, by decide, by decide, by decide⟩

/-- C2 amended: for every traffic log with at least one API-like entry, the
returned value is the base followed by "/" and the "/"-joined segments
accepted by the 0.6-of-original-total walk, except that the bare base is
returned whenever that joined string is empty (in particular when no
segment was accepted). -/
theorem returned_value_is_base_and_walk (entries : List Entry) (targetUrl : Option String)
    (h : entries.filter (fun e => isApiMime e.mimeType) ≠ []) :
    detect_api_prefix_core entries targetUrl =
      some (renderedAnswer (baseOf entries targetUrl)
        (acceptedSegsOf entries targetUrl (mkRat 3 5))) :=
  detect_core_renders entries targetUrl h

/-- Witness for `returned_value_is_base_and_walk` at `rootOnlyLog`. -/
theorem returned_value_is_base_and_walk_witness :
    rootOnlyLog.filter (fun e => isApiMime e.mimeType) ≠ [] ∧
      detect_api_prefix_core rootOnlyLog none =
        some (renderedAnswer (baseOf rootOnlyLog none)
          (acceptedSegsOf rootOnlyLog none (mkRat 3 5))) :=
  ⟨by decide, returned_value_is_base_and_walk rootOnlyLog none (by decide)⟩

/-- C5 counterexample: with start URL `https://example.com` the crawler
accepts and enqueues `http://example.com/page`, whose scheme differs from
the start URL's scheme — the validity predicate only requires the scheme to
be `http` or `https`, not to match the start URL. -/
theorem enqueues_link_with_other_scheme :
    is_valid_url (initCrawler "https://example.com" 2) "http://example.com/page" = true ∧
    (urlparse "http://example.com/page").scheme ≠ (urlparse "https://example.com").scheme ∧
    ("http://example.com/page", 1) ∈
      (processPage (fun _ => ["http://example.com/page"])
        (initCrawler "https://example.com" 2) "https://example.com" 0).queue := by
  refine ⟨by decide, by decide, by decide⟩

/-- C5 amended: every URL enqueued by link discovery that was not already
in the queue satisfies the validity predicate as the code states it: its
host equals the crawl domain, its scheme is `http` or `https` (not
necessarily the start URL's scheme), it is not in the visited set, its path
carries no known static-asset extension, and it sits at depth one below the
current page.  Consequently cross-host and static-asset URLs are never
enqueued. -/
theorem enqueued_link_satisfies_validity (st : CState) (links : List String)
    (depth : Nat) (url : String) (d : Nat)
    (h : (url, d) ∈ (enqueueLinks st links depth).queue) :
    (url, d) ∈ st.queue ∨
      ((urlparse url).netloc = st.domain ∧
       ((urlparse url).scheme = "http" ∨ (urlparse url).scheme = "https") ∧
       url ∉ st.visited ∧
       is_static_asset (urlparse url).path = false ∧
       d = depth + 1) := by
  simp only [enqueueLinks, List.mem_append] at h
  rcases h with h | h
  · exact Or.inl h
  · right
    simp only [List.mem_map] at h
    obtain ⟨l, hl, heq⟩ := h
    have h1 : l = url := congrArg Prod.fst heq
    have h2 : depth + 1 = d := congrArg Prod.snd heq
    rw [← h1, ← h2]
    have hv : is_valid_url st l = true := List.of_mem_filter hl
    simp only [is_valid_url, Bool.and_eq_true, decide_eq_true_eq, Bool.not_eq_true',
      decide_eq_false_iff_not, List.mem_cons, List.mem_singleton,
      List.not_mem_nil, or_false] at hv
    exact ⟨hv.1.1.1, hv.1.1.2, hv.1.2, hv.2, rfl⟩

/-- Witness for `enqueued_link_satisfies_validity`: the link enqueued in
the counterexample state indeed satisfies the amended predicate. -/
theorem enqueued_link_satisfies_validity_witness :
    (("http://example.com/page", 1) ∈
      (enqueueLinks (initCrawler "https://example.com" 2) ["http://example.com/page"] 0).queue) ∧
    (("http://example.com/page", 1) ∈ (initCrawler "https://example.com" 2).queue ∨
      ((urlparse "http://example.com/page").netloc = (initCrawler "https://example.com" 2).domain ∧
       ((urlparse "http://example.com/page").scheme = "http" ∨
        (urlparse "http://example.com/page").scheme = "https") ∧
       "http://example.com/page" ∉ (initCrawler "https://example.com" 2).visited ∧
       is_static_asset (urlparse "http://example.com/page").path = false ∧
       1 = 0 + 1)) :=
  ⟨by decide,
   enqueued_link_satisfies_validity (initCrawler "https://example.com" 2)
     ["http://example.com/page"] 0 "http://example.com/page" 1 (by decide)⟩

/-- C10 counterexample: link normalisation strips only a single trailing
slash, so the href `http://example.com/a//` becomes the frontier entry
`http://example.com/a/`, which still ends with a slash. -/
theorem frontier_entry_may_end_with_slash :
    cleanHrefStr "http://example.com/a//" = "http://example.com/a/" ∧
    ("http://example.com/a/" : String).data.getLast? = some '/' ∧
    ("http://example.com/a/", 1) ∈
      (processPage (fun _ => ["http://example.com/a//"])
        (initCrawler "http://example.com" 2) "http://example.com" 0).queue := by
  refine ⟨by decide, by decide, by decide⟩

/-- C10 amended: normalisation removes everything from the first '#' and
one trailing slash, so a normalised link never contains a fragment
character, and it can end with a slash only when the pre-fragment part of
the raw href ended with two or more slashes. -/
theorem cleaned_href_shape (href : List Char) :
    ('#' ∉ cleanHref href) ∧
      ((cleanHref href).getLast? = some '/' →
        ∃ l, href.takeWhile (fun ch => ch ≠ '#') = l ++ ['/', '/']) := by
  constructor
  · intro hmem
    simp only [cleanHref] at hmem
    split at hmem
    · have := List.mem_takeWhile_imp (List.dropLast_subset _ hmem)
      simp at this
    · have := List.mem_takeWhile_imp hmem
      simp at this
  · intro hlast
    simp only [cleanHref] at hlast
    split at hlast
    next hsl =>
      obtain ⟨l2, hl2⟩ := List.getLast?_eq_some_iff.mp hsl
      rw [hl2, List.dropLast_concat] at hlast
      obtain ⟨l1, hl1⟩ := List.getLast?_eq_some_iff.mp hlast
      exact ⟨l1, by rw [hl2, hl1]; simp⟩
    next hsl =>
      exact absurd hlast hsl

/-- Witness for `cleaned_href_shape` at an href carrying both a fragment
and a double trailing slash. -/
theorem cleaned_href_shape_witness :
    ('#' ∉ cleanHref ("http://example.com/a//#sec".data)) ∧
      (∃ l, ("http://example.com/a//#sec".data).takeWhile (fun ch => ch ≠ '#') =
        l ++ ['/', '/']) :=
  ⟨(cleaned_href_shape ("http://example.com/a//#sec".data)).1,
   (cleaned_href_shape ("http://example.com/a//#sec".data)).2 (by decide)⟩

/-- Witness for `infer_absent_iff_no_api_entry`: a log of one image
response yields absent, while `exampleLog` under a hint matching nothing
still yields a result. -/
theorem infer_absent_iff_no_api_entry_witness :
    detect_api_prefix_core [⟨"https://a/x", "image/png"⟩] none = none ∧
      detect_api_prefix_core exampleLog (some "https://missing.example") ≠ none := by
  constructor
  · exact (infer_absent_iff_no_api_entry [⟨"https://a/x", "image/png"⟩] none).mpr (by decide)
  · intro hnone
    have hall := (infer_absent_iff_no_api_entry exampleLog
      (some "https://missing.example")).mp hnone
    have := hall ⟨"http://a/p", "application/json"⟩ (by decide)
    exact absurd this (by decide)

/-- Witness for `unreadable_har_falls_back_to_root` at concrete URLs. -/
theorem unreadable_har_falls_back_witness :
    finalizeSpecStage none "https://s.example" "https://root.example" =
      Except.ok { usedApiPrefixArg := "https://root.example", synthInvoked := true } :=
  unreadable_har_falls_back_to_root "https://s.example" "https://root.example"

/-- Page processing never changes the visited set or the processed trace:
it only appends to the queue. -/
theorem processPage_keeps_visited_processed (oracle : String → List String) (st : CState)
    (url : String) (depth : Nat) :
    (processPage oracle st url depth).visited = st.visited ∧
      (processPage oracle st url depth).processed = st.processed := by
  unfold processPage enqueueLinks
  split <;> exact ⟨rfl, rfl⟩

/-- Invariant of the fetch loop: if the trace of navigated URLs is
duplicate-free and contained in the visited set, it stays so after any
number of iterations — a URL is added to `visited` in the same step that
navigates to it, and a queued URL already in `visited` is discarded. -/
theorem crawlLoop_inv (oracle : String → List String) :
    ∀ (fuel : Nat) (st : CState),
      st.processed.Nodup → (∀ u ∈ st.processed, u ∈ st.visited) →
      ((crawlLoop oracle fuel st).processed.Nodup ∧
        ∀ u ∈ (crawlLoop oracle fuel st).processed, u ∈ (crawlLoop oracle fuel st).visited) := by
  intro fuel
  induction fuel with
  | zero => intro st h1 h2; exact ⟨h1, h2⟩
  | succ n ih =>
    intro st h1 h2
    rw [crawlLoop]
    cases hq : st.queue with
    | nil => exact ⟨h1, h2⟩
    | cons head rest =>
      obtain ⟨url, depth⟩ := head
      dsimp only
      by_cases hvis : url ∈ st.visited
      · rw [if_pos hvis]
        exact ih _ h1 h2
      · rw [if_neg hvis]
        by_cases hd : st.maxDepth < depth
        · rw [if_pos hd]
          exact ih _ h1 h2
        · rw [if_neg hd]
          have hkeep := processPage_keeps_visited_processed oracle
            { st with queue := rest, visited := url :: st.visited,
                      processed := url :: st.processed } url depth
          apply ih
          · rw [hkeep.2]
            exact List.nodup_cons.mpr ⟨fun hmem => hvis (h2 url hmem), h1⟩
          · intro u hu
            rw [hkeep.2] at hu
            rw [hkeep.1]
            rcases List.mem_cons.mp hu with rfl | hu
            · exact List.mem_cons_self _ _
            · exact List.mem_cons_of_mem _ (h2 u hu)

/-- C6: in any crawl run starting from a state whose navigation trace is
duplicate-free and recorded in the visited set (in particular from the
initial state, where both are empty), every URL is navigated to at most
once: the trace after any number of fetch-loop iterations has no
duplicates. -/
theorem crawl_visits_each_url_at_most_once (oracle : String → List String) (fuel : Nat)
    (st : CState) (h1 : st.processed.Nodup) (h2 : ∀ u ∈ st.processed, u ∈ st.visited) :
    (crawlLoop oracle fuel st).processed.Nodup :=
  (crawlLoop_inv oracle fuel st h1 h2).1

/-- Witness for `crawl_visits_each_url_at_most_once`: a run from the
initial crawler state over a two-page site. -/
theorem crawl_visits_once_witness :
    (initCrawler "http://t.com" 2).processed.Nodup ∧
      (crawlLoop
        (fun u => if u = "http://t.com" then ["http://t.com/a", "http://t.com"] else [])
        5 (initCrawler "http://t.com" 2)).processed.Nodup :=
  ⟨by decide,
   crawl_visits_each_url_at_most_once
     (fun u => if u = "http://t.com" then ["http://t.com/a", "http://t.com"] else [])
     5 (initCrawler "http://t.com" 2) (by decide) (by decide)⟩

/-- Characters without an opening brace pass through the filling scan
unchanged. -/
theorem fillAux_copies_lit :
    ∀ (s rest : List Char), (∀ ch ∈ s, ch ≠ '{') →
      fillAux none (s ++ rest) = s ++ fillAux none rest := by
  intro s
  induction s with
  | nil => intro rest _; rfl
  | cons c s' ih =>
    intro rest h
    have hc : ¬ c = '{' := h c (List.mem_cons_self _ _)
    simp only [List.cons_append, fillAux, if_neg hc, List.append_eq]
    rw [ih rest (fun ch hch => h ch (List.mem_cons_of_mem _ hch))]

/-- Inside an open brace group, scanning the rest of the group (no closing
brace in it) up to the closing brace produces the replacement '1', provided
the group is nonempty in total. -/
theorem fillAux_closes_group :
    ∀ (s acc rest : List Char), (s ≠ [] ∨ acc ≠ []) → (∀ ch ∈ s, ch ≠ '}') →
      fillAux (some acc) (s ++ '}' :: rest) = '1' :: fillAux none rest := by
  intro s
  induction s with
  | nil =>
    intro acc rest hne _
    have hacc : acc ≠ [] := hne.resolve_left (fun hs => hs rfl)
    simp [fillAux, hacc]
  | cons c s' ih =>
    intro acc rest _ h
    have hc : ¬ c = '}' := h c (List.mem_cons_self _ _)
    simp only [List.cons_append, fillAux, if_neg hc]
    exact ih (c :: acc) rest (Or.inr (List.cons_ne_nil _ _))
      (fun ch hch => h ch (List.mem_cons_of_mem _ hch))

/-- A complete nonempty brace group is replaced by '1'. -/
theorem fillAux_replaces_group (s rest : List Char) (hne : s ≠ [])
    (h : ∀ ch ∈ s, ch ≠ '}') :
    fillAux none ('{' :: (s ++ '}' :: rest)) = '1' :: fillAux none rest := by
  simp only [fillAux, if_pos rfl]
  exact fillAux_closes_group s [] rest (Or.inl hne) h

/-- C7: filling a well-formed path template replaces every brace-delimited
placeholder segment with the fixed representative value "1" and leaves
every literal character unchanged. -/
theorem fill_params_fills_template (t : List TItem) (h : ∀ i ∈ t, okTItem i) :
    fillParams (renderTemplate t) = fillTemplate t := by
  induction t with
  | nil => rfl
  | cons i t' ih =>
    have hi : okTItem i := h i (List.mem_cons_self _ _)
    have ht' : ∀ j ∈ t', okTItem j := fun j hj => h j (List.mem_cons_of_mem _ hj)
    have hrest : fillParams (renderTemplate t') = fillTemplate t' := ih ht'
    cases i with
    | lit s =>
      show fillAux none (s ++ renderTemplate t') = s ++ fillTemplate t'
      rw [fillAux_copies_lit s (renderTemplate t') hi]
      exact congrArg (s ++ ·) hrest
    | param s =>
      obtain ⟨hne, hnoclose⟩ := hi
      show fillAux none (('{' :: (s ++ ['}'])) ++ renderTemplate t') = '1' :: fillTemplate t'
      have hassoc : ('{' :: (s ++ ['}'])) ++ renderTemplate t' =
          '{' :: (s ++ '}' :: renderTemplate t') := by
        simp
      rw [hassoc, fillAux_replaces_group s (renderTemplate t') hne hnoclose]
      exact congrArg ('1' :: ·) hrest

/-- Witness for `fill_params_fills_template`: the template
`/items/\x7bitemId\x7d/details` is well-formed and fills to
`/items/1/details`. -/
theorem fill_params_fills_template_witness :
    (∀ i ∈ [TItem.lit "/items/".data, TItem.param "itemId".data, TItem.lit "/details".data],
      okTItem i) ∧
    fillParams ("/items/{itemId}/details".data) = "/items/1/details".data ∧
    fill_params "/items/{itemId}/details" = "/items/1/details" := by
  refine ⟨by decide, ?_, ?_⟩
  · have h := fill_params_fills_template
      [TItem.lit "/items/".data, TItem.param "itemId".data, TItem.lit "/details".data]
      (by decide)
    have hr : renderTemplate
        [TItem.lit "/items/".data, TItem.param "itemId".data, TItem.lit "/details".data] =
        "/items/{itemId}/details".data := by decide
    have hf : fillTemplate
        [TItem.lit "/items/".data, TItem.param "itemId".data, TItem.lit "/details".data] =
        "/items/1/details".data := by decide
    rw [hr, hf] at h
    exact h
  · decide

end Scanner



